import Mathlib

/-!
Verification of the ZFS pool / SMART disk monitoring program (monitor.py)
against its natural-language specification.

Modelling conventions for the shallow embedding:
* Python floats are modelled by exact rationals; the one-decimal string
  formatting ".1f" is modelled by round-half-to-even at one decimal digit.
* Python dates are modelled as integer day offsets from today; adding a
  timedelta of n days is addition of n, and date comparison is integer
  comparison (the year-9999 calendar bound is not modelled).
* Python int(...) is modelled for optionally signed decimal digit strings
  with surrounding whitespace (digit-group underscores and non-ASCII digits
  are not modelled); float(...) is modelled for digit-and-dot strings,
  which is the only shape the program feeds it.
* The regular expressions of the source are modelled by equivalent
  character-list scanners, written next to the construct they translate.
* Notification delivery is out of scope; a notification is modelled as the
  data handed to send_notification.
-/

namespace ZMon

/-- Split a character list at every character satisfying p, keeping empty
pieces between adjacent separators. -/
def splitOnChar (p : Char → Bool) : List Char → List (List Char)
  | [] => [[]]
  | c :: rest =>
    let r := splitOnChar p rest
    if p c then [] :: r
    else
      match r with
      | [] => [[c]]
      | h :: t => (c :: h) :: t

/-- Drop whitespace from both ends, as the Python strip method does. -/
def trimL (cs : List Char) : List Char :=
  ((cs.dropWhile Char.isWhitespace).reverse.dropWhile Char.isWhitespace).reverse

/-- Python str.strip() with no arguments. -/
def pyStrip (s : String) : String := String.mk (trimL s.toList)

/-- Python str.lower() on the ASCII range. -/
def pyLower (s : String) : String := String.mk (s.toList.map Char.toLower)

/-- Python s.replace(t, empty string): remove every occurrence of the
character t. -/
def removeAll (t : Char) (s : String) : String :=
  String.mk (s.toList.filter (fun c => c ≠ t))

/-- Split at the first occurrence of the character t: the pieces before and
after it, or none when t does not occur. -/
def breakOnChar (t : Char) : List Char → Option (List Char × List Char)
  | [] => none
  | c :: rest =>
    if c = t then some ([], rest)
    else (breakOnChar t rest).map (fun kv => (c :: kv.1, kv.2))

/-- Python str.split() with no arguments: split on whitespace runs and drop
empty pieces. -/
def pySplit (s : String) : List String :=
  ((splitOnChar Char.isWhitespace s.toList).filter (fun p => p ≠ [])).map String.mk

/-- Python str.splitlines() restricted to newline separators: pieces
between newlines, a trailing empty piece dropped. -/
def pySplitlines (s : String) : List String :=
  let ls := splitOnChar (fun c => c = Char.ofNat 10) s.toList
  (if ls.getLast? = some [] then ls.dropLast else ls).map String.mk

/-- Boolean list-prefix test used by the substring scanner. -/
def isPrefixL : List Char → List Char → Bool
  | [], _ => true
  | _ :: _, [] => false
  | a :: as, b :: bs => a = b && isPrefixL as bs

/-- Scanner for the Python substring test (needle in hay) on char lists. -/
def containsL (needle : List Char) : List Char → Bool
  | [] => needle.isEmpty
  | c :: rest => isPrefixL needle (c :: rest) || containsL needle rest

/-- Python substring containment test: needle in hay. -/
def strContains (hay needle : String) : Bool :=
  containsL needle.toList hay.toList

/-- A single-quote character, kept out of string literals. -/
def squote : String := (Char.ofNat 39).toString

/-- Python int(s) for an optionally signed decimal string with surrounding
whitespace; none models ValueError. -/
def pyInt? (s : String) : Option Int :=
  let cs := trimL s.toList
  let digitsOf : List Char → Option Int := fun ds =>
    if ds ≠ [] ∧ ds.all Char.isDigit then
      some (ds.foldl (fun a c => 10 * a + ((c.toNat : Int) - 48)) 0)
    else none
  match cs with
  | '+' :: rest => digitsOf rest
  | '-' :: rest => (digitsOf rest).map (fun n => -n)
  | _ => digitsOf cs

/-- Value of a list of decimal digits. -/
def digitsVal (ds : List Char) : ℕ :=
  ds.foldl (fun a c => 10 * a + (c.toNat - 48)) 0

/-- Python float(s) for strings made of decimal digits and dots (the only
shape the program feeds to float); none models ValueError. -/
def parseFloatQ? (s : String) : Option ℚ :=
  let cs := s.toList
  if cs ≠ [] ∧ cs.all (fun c => c.isDigit || c = '.') then
    match cs.splitOn '.' with
    | [ip] => if ip = [] then none else some (digitsVal ip)
    | [ip, fp] =>
      if ip = [] ∧ fp = [] then none
      else some ((digitsVal ip : ℚ) + (digitsVal fp : ℚ) / 10 ^ fp.length)
    | _ => none
  else none

/-- Python s.replace with a comma and the empty string. -/
def removeCommas (s : String) : String := removeAll ',' s

/-- Scanner for re.search of a caret, whitespace star, then a captured
nonempty digit run: the leading digits of the string after optional
whitespace. -/
def leadingDigits (s : String) : Option String :=
  let t := s.toList.dropWhile Char.isWhitespace
  let ds := t.takeWhile Char.isDigit
  if ds = [] then none else some (String.mk ds)

/-- Scanner for re.search of a caret, whitespace star, then a captured
nonempty run of digits and commas. -/
def leadingUnits? (s : String) : Option String :=
  let t := s.toList.dropWhile Char.isWhitespace
  let ds := t.takeWhile (fun c => c.isDigit || c = ',')
  if ds = [] then none else some (String.mk ds)

/-- One attempted match, at the current position, of the bracketed-TB
pattern: an opening square bracket, optional whitespace, a captured nonempty
run of digits and dots, optional whitespace, the letters TB, optional
whitespace, a closing square bracket. -/
def bracketMatchAt : List Char → Option (List Char)
  | '[' :: rest =>
    let r1 := rest.dropWhile Char.isWhitespace
    let grp := r1.takeWhile (fun c => c.isDigit || c = '.')
    if grp = [] then none
    else
      match (r1.drop grp.length).dropWhile Char.isWhitespace with
      | 'T' :: 'B' :: r3 =>
        match r3.dropWhile Char.isWhitespace with
        | ']' :: _ => some grp
        | _ => none
      | _ => none
  | _ => none

/-- Leftmost-match scan for the bracketed-TB pattern, as re.search does. -/
def bracketSearch : List Char → Option (List Char)
  | [] => none
  | c :: rest =>
    match bracketMatchAt (c :: rest) with
    | some g => some g
    | none => bracketSearch rest

/-- The captured group of the bracketed-TB pattern in s, if any. -/
def bracketTB? (s : String) : Option String :=
  (bracketSearch s.toList).map String.mk

/-- Round to the nearest integer with ties to even, as Python one-decimal
formatting of an exact value does. -/
def roundHalfEven (q : ℚ) : ℤ :=
  let f := Int.floor q
  if q - f < 1 / 2 then f
  else if 1 / 2 < q - f then f + 1
  else if f % 2 = 0 then f else f + 1

/-- One-decimal rounding, modelling the ".1f" format followed by float(). -/
def round1 (q : ℚ) : ℚ := (roundHalfEven (q * 10) : ℚ) / 10

/-- First some-result of f over a list, modelling a Python for loop that
returns on its first hit. -/
def firstMatch (f : String → Option String) : List String → Option String
  | [] => none
  | l :: ls =>
    match f l with
    | some v => some v
    | none => firstMatch f ls

/-- Columnar strategy of parse_smartctl_value, per line: the line is split
on whitespace; with at least ten parts and the second equal to the
attribute name, the tenth part is the value. -/
def columnarMatch (attributeName line : String) : Option String :=
  let parts := pySplit line
  if 10 ≤ parts.length ∧ parts.get? 1 = some attributeName then parts.get? 9
  else none

/-- Split a line at its first colon, as the Python split with a colon and
maxsplit one does; none when the line has no colon. -/
def splitFirstColon (line : String) : Option (String × String) :=
  (breakOnChar ':' line.toList).map (fun kv => (String.mk kv.1, String.mk kv.2))

/-- Key-value strategy of parse_smartctl_value, per line: split at the
first colon; when the trimmed lowercased key equals the search key, the
trimmed remainder is the value. -/
def keyValueMatch (searchKey line : String) : Option String :=
  match splitFirstColon line with
  | some kv =>
    if pyLower (pyStrip kv.1) = searchKey then some (pyStrip kv.2) else none
  | none => none

/-- parse_smartctl_value from the source: try the columnar strategy over
all lines, then the key-value strategy with the trimmed lowercased
attribute name over all lines. -/
def parse_smartctl_value (output attributeName : String) : Option String :=
  match firstMatch (columnarMatch attributeName) (pySplitlines output) with
  | some v => some v
  | none =>
    firstMatch (keyValueMatch (pyLower (pyStrip attributeName))) (pySplitlines output)

/-- parse_smartctl_health from the source: scan the whole output for the
literal pass and fail markers (the decorating emoji of the source strings
are dropped; only the verdict word is modelled). -/
def parse_smartctl_health (output : String) : String :=
  if strContains output "PASSED" then "PASSED"
  else if strContains output "FAILED" then "FAILED"
  else if strContains output "SMART overall-health self-assessment test result: FAILED"
  then "FAILED"
  else if strContains output "SMART Health Status: OK" then "PASSED"
  else "Unknown"

/-- parse_smartctl_model from the source: the first line beginning with
either model-label spelling yields the trimmed remainder after the first
colon. -/
def parse_smartctl_model (output : String) : String :=
  match (pySplitlines output).find?
      (fun l => isPrefixL "Device Model:".toList l.toList
        || isPrefixL "Device:".toList l.toList) with
  | some l =>
    (match splitFirstColon l with
     | some kv => pyStrip kv.2
     | none => "N/A")
  | none => "N/A"

/-- Python truthiness of an optional string: none and the empty string are
falsy. -/
def pyTruthy : Option String → Bool
  | none => false
  | some s => s ≠ ""

/-- The pattern a if a else b of the source fallback lookups. -/
def orFalsy (a b : Option String) : Option String :=
  if pyTruthy a then a else b

/-- Field extraction aliases of the SMART attribute normalizer. -/
def temp_raw_of (attrs : String) : Option String :=
  orFalsy (parse_smartctl_value attrs "Temperature")
    (parse_smartctl_value attrs "Temperature_Celsius")

def hours_raw_of (attrs : String) : Option String :=
  orFalsy (parse_smartctl_value attrs "Power On Hours")
    (parse_smartctl_value attrs "Power_On_Hours")

def percentage_used_raw_of (attrs : String) : Option String :=
  parse_smartctl_value attrs "Percentage Used"

def life_remain_raw_of (attrs : String) : Option String :=
  parse_smartctl_value attrs "Percent_Lifetime_Remain"

def wear_level_raw_of (attrs : String) : Option String :=
  parse_smartctl_value attrs "Wear_Leveling_Count"

def data_units_written_raw_of (attrs : String) : Option String :=
  parse_smartctl_value attrs "Data Units Written"

def lba_written_raw_of (attrs : String) : Option String :=
  parse_smartctl_value attrs "Total_LBAs_Written"

/-- Temperature reduction of the source: the leading digits of the raw
value, else the N/A sentinel. -/
def tempOf (temp_raw : Option String) : String :=
  match temp_raw with
  | some s =>
    (match leadingDigits s with
     | some d => d
     | none => "N/A")
  | none => "N/A"

/-- Power-on hours handling of the source: keep the truthy raw string,
parse it as an integer with commas removed (ValueError resets the string to
N/A), and when the integer is non-negative derive the powered-days value,
one-decimal formatted, from hours over twenty-four. -/
def hoursDays (hours_raw : Option String) : String × Option ℚ :=
  let hours :=
    match hours_raw with
    | some s => if s = "" then "N/A" else s
    | none => "N/A"
  if hours = "N/A" then (hours, none)
  else
    match pyInt? (removeCommas hours) with
    | some n => if 0 ≤ n then (hours, some (round1 ((n : ℚ) / 24))) else (hours, none)
    | none => ("N/A", none)

/-- The wear-percentage value of the report, with its source tag. -/
inductive LifeUsed
  | na
  | used (n : ℤ)
  | wlc (n : ℤ)
deriving DecidableEq, Repr

/-- Rendering of the wear-percentage line fragment of the source. -/
def lifeUsedStr : LifeUsed → String
  | .na => "N/A"
  | .used n => toString n ++ "% used"
  | .wlc n => toString n ++ "% used (WLC)"

/-- Wear-percentage resolution of the source. The three raw fields are
tried in order inside one try block, so a ValueError in the branch that was
selected leaves the sentinel in place without consulting later branches:
a present direct used-percentage (every percent sign removed), else one
hundred minus the remaining percentage, else the wear-leveling counter. -/
def life_used_resolution
    (percentage_used_raw life_remain_raw wear_level_raw : Option String) :
    LifeUsed :=
  match percentage_used_raw with
  | some s =>
    (match pyInt? (removeAll '%' s) with
     | some n => .used n
     | none => .na)
  | none =>
    match life_remain_raw with
    | some s =>
      (match pyInt? s with
       | some n => .used (100 - n)
       | none => .na)
    | none =>
      match wear_level_raw with
      | some s =>
        (match pyInt? s with
         | some n => .wlc n
         | none => .na)
      | none => .na

/-- Wear percentage computed from a full attributes text. -/
def life_used_of_attrs (attrs : String) : LifeUsed :=
  life_used_resolution (percentage_used_raw_of attrs) (life_remain_raw_of attrs)
    (wear_level_raw_of attrs)

/-- Outcome of the bytes-written resolution: either a value (possibly
absent), or the ValueError of a failed conversion, which the enclosing try
block of the source turns into the calculation-error outcome. -/
inductive TbwOutcome
  | calcFail
  | val (tb : Option ℚ)
deriving DecidableEq, Repr

/-- Bytes-written resolution of the source, in terabytes. A present rich
field is parsed for a bracketed TB value (used verbatim), else for a
leading unit count at 512 bytes per unit; only an absent rich field falls
through to the raw sector count at 512 bytes per sector; divisions are by
two to the fortieth. -/
def tbWritten (data_units_written_raw lba_written_raw : Option String) :
    TbwOutcome :=
  match data_units_written_raw with
  | some s =>
    (match bracketTB? s with
     | some grp =>
       (match parseFloatQ? grp with
        | some q => .val (some q)
        | none => .calcFail)
     | none =>
       match leadingUnits? s with
       | some grp =>
         (match pyInt? (removeCommas grp) with
          | some n => .val (some ((n : ℚ) * 512 / 1024 ^ 4))
          | none => .calcFail)
       | none => .val none)
  | none =>
    match lba_written_raw with
    | some s =>
      (match pyInt? (removeCommas s) with
       | some n => .val (some ((n : ℚ) * 512 / 1024 ^ 4))
       | none => .calcFail)
    | none => .val none

/-- Bytes-written resolution as the specification sentence orders it: the
bracketed TB value, then the leading unit count, then the sector-count
fallback, each tried when the previous attempt produced no value. Stated
from the claim wording, for comparison with tbWritten. -/
def tbWrittenSpecChain (data_units_written_raw lba_written_raw : Option String) :
    Option ℚ :=
  let a := data_units_written_raw.bind (fun s => (bracketTB? s).bind parseFloatQ?)
  let b := data_units_written_raw.bind (fun s =>
    (leadingUnits? s).bind (fun grp =>
      (pyInt? (removeCommas grp)).map (fun n => (n : ℚ) * 512 / 1024 ^ 4)))
  let c := lba_written_raw.bind (fun s =>
    (pyInt? (removeCommas s)).map (fun n => (n : ℚ) * 512 / 1024 ^ 4))
  ((a.orElse (fun _ => b)).orElse (fun _ => c))

/-- Run-wide constants of the endurance estimator. -/
structure MonitorConfig where
  ratedTBW : ℚ
  ageYears : ℕ
deriving DecidableEq, Repr

/-- Daily write rate in GB per day, zero when the powered-days value is not
positive. -/
def gbPerDay (W D : ℚ) : ℚ := if 0 < D then W * 1024 / D else 0

/-- Replacement recommendation, dates as day offsets from today. -/
inductive ReplaceRec
  | na
  | tbwLimited (dateOffset : ℤ)
  | ageLimited (dateOffset : ℤ)
  | nowExceeded
deriving DecidableEq, Repr

/-- Date offset of a recommendation, when it carries one. -/
def recDate : ReplaceRec → Option ℤ
  | .tbwLimited d => some d
  | .ageLimited d => some d
  | _ => none

/-- Whether a recommendation carries the usage-limited tag. -/
def isUsageLimited : ReplaceRec → Bool
  | .tbwLimited _ => true
  | _ => false

/-- Replacement-date selection of the source: the usage-limited date is
today plus the remaining days, the age-limited date today plus the age
limit in days; since both dates share the same origin, the source
comparison of dates is the comparison of the day offsets, the usage date
winning only when strictly earlier. -/
def chosenRec (dn ageOff : ℤ) : ReplaceRec :=
  if dn < ageOff then .tbwLimited dn else .ageLimited ageOff

/-- Outcome of the endurance section of a drive report. -/
inductive EnduranceResult
  | statsNA
  | calcError
  | stats (tb gbday pct remaining : ℚ) (daysRem : Option ℤ)
      (yearsRem : Option ℚ) (replaceBy : ReplaceRec)
deriving DecidableEq, Repr

/-- Endurance computation of the source after bytes-written resolution:
given the optional terabytes written and optional powered days, either the
stats are not computable, or the rate, percentage, remaining capacity,
remaining days and replacement recommendation are derived along the branch
structure of the source. -/
def endurance_core (cfg : MonitorConfig) (tb : Option ℚ) (days : Option ℚ) :
    EnduranceResult :=
  match tb, days with
  | some W, some D =>
    if 0 < cfg.ratedTBW then
      let gb := gbPerDay W D
      let pct := W / cfg.ratedTBW * 100
      let rem := cfg.ratedTBW - W
      if 1 / 1000 < gb then
        let dn : ℤ := Int.floor (rem * 1024 / gb)
        if 0 ≤ dn then
          .stats W gb pct rem (some dn) (some (round1 ((dn : ℚ) / 365)))
            (chosenRec dn ((cfg.ageYears : ℤ) * 365))
        else
          .stats W gb pct rem (some dn) (some 0) .nowExceeded
      else if 0 ≤ rem then
        .stats W gb pct rem none none (.ageLimited ((cfg.ageYears : ℤ) * 365))
      else
        .stats W gb pct rem none none .na
    else .statsNA
  | _, _ => .statsNA

/-- Remaining-days projection of the usage-limited branch. -/
def daysRemainingOf (cfg : MonitorConfig) (W D : ℚ) : ℤ :=
  Int.floor ((cfg.ratedTBW - W) * 1024 / gbPerDay W D)

/-- Full endurance section: bytes-written resolution followed by the core
computation, a ValueError of the resolution becoming the calculation-error
outcome of the except handler. -/
def endurance (cfg : MonitorConfig)
    (data_units_written_raw lba_written_raw : Option String)
    (days : Option ℚ) : EnduranceResult :=
  match tbWritten data_units_written_raw lba_written_raw with
  | .calcFail => .calcError
  | .val tb => endurance_core cfg tb days

/-- Pushover priority bucketing of send_notification: minus one for Gotify
priority at most one, one for at least eight, zero otherwise. -/
def pushover_priority (priority_level : ℤ) : ℤ :=
  if priority_level ≤ 1 then -1
  else if 8 ≤ priority_level then 1
  else 0

/-- Captured result of an external command: stdout, stderr, return code. -/
structure CmdResult where
  stdout : String
  stderr : String
  retcode : ℤ
deriving DecidableEq, Repr

/-- The healthy-pool marker searched for in the status output. -/
def poolHealthyMarker (pool : String) : String :=
  "pool " ++ squote ++ pool ++ squote ++ " is healthy"

/-- Pool status classification of the source, reduced to its priority:
return code zero with the healthy marker gives one; a not-found marker in
stderr or stdout gives eight; anything else gives eight. -/
def current_priority (pool : String) (r : CmdResult) : ℕ :=
  if r.retcode = 0 ∧ strContains r.stdout (poolHealthyMarker pool) then 1
  else if strContains r.stderr "no such pool" ∨ strContains r.stdout "no such pool" then 8
  else 8

/-- One monitored pool with the captured result of its status query. -/
abbrev PoolRun := String × CmdResult

/-- Aggregate priority of the run: starting from one, each pool raises the
running value when its own priority is strictly larger, exactly as the
source accumulates overall_priority; the pool-summary notification is sent
with this value. -/
def overall_priority (runs : List PoolRun) : ℕ :=
  runs.foldl
    (fun acc pr =>
      if acc < current_priority pr.1 pr.2 then current_priority pr.1 pr.2 else acc)
    1

/-- Raw inputs of one disk iteration: the return codes and outputs of the
three smartctl queries. -/
structure DiskInputs where
  ret_info : ℤ
  ret_health : ℤ
  ret_attrs : ℤ
  info_out : String
  health_out : String
  attrs_out : String
deriving DecidableEq, Repr

/-- The structured content of one drive notification body. -/
structure DriveReport where
  model : String
  health : String
  temp : String
  hours : String
  lifeUsed : LifeUsed
  enduranceOut : EnduranceResult
deriving DecidableEq, Repr

/-- Assembly of the drive report from the three outputs, following the
per-disk section of the source. -/
def buildDriveReport (cfg : MonitorConfig) (d : DiskInputs) : DriveReport :=
  let hd := hoursDays (hours_raw_of d.attrs_out)
  { model := parse_smartctl_model d.info_out
    health := parse_smartctl_health d.health_out
    temp := tempOf (temp_raw_of d.attrs_out)
    hours := hd.1
    lifeUsed := life_used_of_attrs d.attrs_out
    enduranceOut :=
      endurance cfg (data_units_written_raw_of d.attrs_out)
        (lba_written_raw_of d.attrs_out) hd.2 }

/-- A notification emitted while processing one disk. -/
inductive DiskNotification
  | smartError (dev : String) (priority : ℕ)
  | driveReport (dev : String) (report : DriveReport) (priority : ℕ)
deriving DecidableEq, Repr

/-- Priority carried by a per-disk notification. -/
def prio : DiskNotification → ℕ
  | .smartError _ p => p
  | .driveReport _ _ p => p

/-- Notifications emitted for one disk, following the source: when any of
the three smartctl queries fails the disk is skipped, with a priority-eight
alert only when the health query failed; otherwise the drive report is sent
unconditionally at the aggregate pool priority. -/
def disk_notifications (cfg : MonitorConfig) (overall : ℕ) (dev : String)
    (d : DiskInputs) : List DiskNotification :=
  if d.ret_info ≠ 0 ∨ d.ret_health ≠ 0 ∨ d.ret_attrs ≠ 0 then
    if d.ret_health ≠ 0 then [.smartError dev 8] else []
  else
    [.driveReport dev (buildDriveReport cfg d) overall]

/-! Specification-side formulations of the two field-lookup strategies,
stated from the wording of the specification for comparison with the
translated parse_smartctl_value. -/

/-- Selection test of the columnar strategy as the specification words it:
the line has at least ten whitespace-separated tokens and the second equals
the field name exactly. -/
def colPred (attributeName line : String) : Bool :=
  decide (10 ≤ (pySplit line).length ∧ (pySplit line).get? 1 = some attributeName)

/-- Columnar lookup as the specification words it: the first line passing
the selection test yields its tenth token verbatim. -/
def specColumnar (output attributeName : String) : Option String :=
  ((pySplitlines output).find? (colPred attributeName)).bind
    (fun l => (pySplit l).get? 9)

/-- Selection test of the key-value strategy as the specification words it:
split on the first colon, trimmed case-insensitive key match. -/
def kvPred (searchKey line : String) : Bool :=
  match splitFirstColon line with
  | some kv => pyLower (pyStrip kv.1) == searchKey
  | none => false

/-- Key-value lookup as the specification words it: the first line passing
the selection test yields the trimmed remainder after the first colon. -/
def specKeyValue (output attributeName : String) : Option String :=
  ((pySplitlines output).find? (kvPred (pyLower (pyStrip attributeName)))).bind
    (fun l => (splitFirstColon l).map (fun kv => pyStrip kv.2))

/-- A first-hit loop agrees with selecting the first line passing the
matching test and extracting from it, whenever the per-line matcher hits
exactly on the lines passing the test and extraction agrees there. -/
theorem firstMatch_eq_find_bind (f g : String → Option String) (p : String → Bool)
    (h1 : ∀ l, (f l).isSome = p l) (h2 : ∀ l, p l = true → f l = g l) :
    ∀ ls : List String, firstMatch f ls = (ls.find? p).bind g := by
  intro ls
  induction ls with
  | nil => rfl
  | cons l ls ih =>
    cases hp : p l with
    | true =>
      have hs : (f l).isSome = true := by rw [h1, hp]
      cases hfl : f l with
      | none => rw [hfl] at hs; simp at hs
      | some v =>
        rw [List.find?_cons_of_pos _ hp]
        have hgl : g l = some v := by rw [← h2 l hp, hfl]
        simp [firstMatch, hfl, hgl]
    | false =>
      have hn : f l = none := by
        have hs := h1 l
        rw [hp] at hs
        exact Option.not_isSome_iff_eq_none.mp (by simp [hs])
      rw [List.find?_cons_of_neg _ (by simp [hp])]
      simp [firstMatch, hn, ih]

/-- A first-hit loop yields nothing exactly when the matcher misses on
every line. -/
theorem firstMatch_eq_none_iff (f : String → Option String) :
    ∀ ls : List String, firstMatch f ls = none ↔ ∀ l ∈ ls, f l = none := by
  intro ls
  induction ls with
  | nil => simp [firstMatch]
  | cons l ls ih =>
    cases hfl : f l with
    | some v => simp [firstMatch, hfl]
    | none => simp [firstMatch, hfl, ih]

theorem columnarMatch_isSome (attributeName l : String) :
    (columnarMatch attributeName l).isSome = colPred attributeName l := by
  unfold columnarMatch colPred
  by_cases h : 10 ≤ (pySplit l).length ∧ (pySplit l).get? 1 = some attributeName
  · rw [if_pos h, decide_eq_true h]
    have h9 : 9 < (pySplit l).length := lt_of_lt_of_le (by norm_num) h.1
    rw [List.get?_eq_get h9]
    rfl
  · rw [if_neg h, decide_eq_false h]
    rfl

theorem columnarMatch_of_pred (attributeName l : String)
    (h : colPred attributeName l = true) :
    columnarMatch attributeName l = (pySplit l).get? 9 := by
  unfold columnarMatch
  exact if_pos (of_decide_eq_true h)

theorem keyValueMatch_isSome (searchKey l : String) :
    (keyValueMatch searchKey l).isSome = kvPred searchKey l := by
  unfold keyValueMatch kvPred
  cases splitFirstColon l with
  | none => rfl
  | some kv =>
    by_cases h : pyLower (pyStrip kv.1) = searchKey
    · simp [h]
    · simp [h]

theorem keyValueMatch_of_pred (searchKey l : String)
    (h : kvPred searchKey l = true) :
    keyValueMatch searchKey l = (splitFirstColon l).map (fun kv => pyStrip kv.2) := by
  unfold keyValueMatch
  unfold kvPred at h
  cases hs : splitFirstColon l with
  | none => rw [hs] at h; simp at h
  | some kv =>
    rw [hs] at h
    have he : pyLower (pyStrip kv.1) = searchKey := by
      have := of_decide_eq_true (by simpa using h)
      simpa using this
    simp [he]

/-- C5: for every raw multi-line text and every field name, the field
lookup tries the columnar strategy first (a line with at least ten
whitespace-separated tokens whose second token equals the field name
exactly yields the tenth token verbatim), then the key-value strategy
(split on the first colon, trimmed case-insensitive key match yields the
trimmed remainder); if no line matches either strategy the result is
absent. The lookup is a total function, so it never raises. -/
theorem field_lookup_strategy_order (output attributeName : String) :
    (parse_smartctl_value output attributeName =
      match specColumnar output attributeName with
      | some v => some v
      | none => specKeyValue output attributeName) ∧
    (parse_smartctl_value output attributeName = none ↔
      ∀ l ∈ pySplitlines output,
        columnarMatch attributeName l = none ∧
        keyValueMatch (pyLower (pyStrip attributeName)) l = none) := by
  have hcol : firstMatch (columnarMatch attributeName) (pySplitlines output) =
      specColumnar output attributeName :=
    firstMatch_eq_find_bind _ _ _ (columnarMatch_isSome attributeName)
      (columnarMatch_of_pred attributeName) _
  have hkv : firstMatch (keyValueMatch (pyLower (pyStrip attributeName)))
      (pySplitlines output) = specKeyValue output attributeName :=
    firstMatch_eq_find_bind _ _ _
      (keyValueMatch_isSome (pyLower (pyStrip attributeName)))
      (keyValueMatch_of_pred (pyLower (pyStrip attributeName))) _
  constructor
  · unfold parse_smartctl_value
    rw [hcol, hkv]
  · unfold parse_smartctl_value
    cases hc : firstMatch (columnarMatch attributeName) (pySplitlines output) with
    | some v =>
      simp only [hc]
      constructor
      · intro h; cases h
      · intro h
        have := ((firstMatch_eq_none_iff _ _).mpr (fun l hl => (h l hl).1))
        rw [hc] at this; cases this
    | none =>
      simp only [hc]
      have h1 := firstMatch_eq_none_iff (columnarMatch attributeName)
        (pySplitlines output)
      have h2 := firstMatch_eq_none_iff
        (keyValueMatch (pyLower (pyStrip attributeName))) (pySplitlines output)
      rw [hc] at h1
      constructor
      · intro h l hl
        exact ⟨(h1.mp rfl) l hl, (h2.mp h) l hl⟩
      · intro h
        exact h2.mpr (fun l hl => (h l hl).2)

/-! Helper lemmas about a running maximum, used for the aggregate pool
priority. -/

theorem ite_lt_eq_max (a b : ℕ) : (if a < b then b else a) = max a b := by
  rcases Nat.lt_or_ge a b with h | h
  · rw [if_pos h, Nat.max_eq_right h.le]
  · rw [if_neg (Nat.not_lt.mpr h), Nat.max_eq_left h]

theorem le_foldl_max_init (l : List ℕ) : ∀ a : ℕ, a ≤ l.foldl max a := by
  induction l with
  | nil => intro a; exact le_refl a
  | cons x xs ih =>
    intro a
    exact le_trans (Nat.le_max_left a x) (ih (max a x))

theorem le_foldl_max_of_mem (l : List ℕ) :
    ∀ (a x : ℕ), x ∈ l → x ≤ l.foldl max a := by
  induction l with
  | nil => intro a x h; cases h
  | cons y ys ih =>
    intro a x h
    rcases List.mem_cons.mp h with rfl | hm
    · exact le_trans (Nat.le_max_right a x) (le_foldl_max_init ys (max a x))
    · exact ih (max a y) x hm

theorem foldl_max_eq_init_or_mem (l : List ℕ) :
    ∀ a : ℕ, l.foldl max a = a ∨ l.foldl max a ∈ l := by
  induction l with
  | nil => intro a; left; rfl
  | cons y ys ih =>
    intro a
    rcases ih (max a y) with h | h
    · rcases Nat.le_total y a with hy | hy
      · left
        show List.foldl max (max a y) ys = a
        rw [h, Nat.max_eq_left hy]
      · right
        show List.foldl max (max a y) ys ∈ y :: ys
        rw [h, Nat.max_eq_right hy]
        exact List.mem_cons_self y ys
    · right
      exact List.mem_cons_of_mem y h

theorem one_le_current_priority (pool : String) (r : CmdResult) :
    1 ≤ current_priority pool r := by
  unfold current_priority
  split_ifs <;> norm_num

theorem overall_priority_eq_foldl_max (runs : List PoolRun) :
    overall_priority runs =
      (runs.map (fun pr => current_priority pr.1 pr.2)).foldl max 1 := by
  unfold overall_priority
  rw [List.foldl_map]
  congr 1
  funext acc pr
  exact ite_lt_eq_max acc (current_priority pr.1 pr.2)

/-- C9: for every nonempty list of configured pools, the priority of the
single pool-summary notification equals the maximum of the individual pool
verdict priorities: it is an upper bound of them and is attained by one of
them (so it is never their sum, and never a later value overwriting a
higher earlier one). -/
theorem summary_priority_is_max (runs : List PoolRun) (h : runs ≠ []) :
    (∀ pr ∈ runs, current_priority pr.1 pr.2 ≤ overall_priority runs) ∧
    (∃ pr ∈ runs, overall_priority runs = current_priority pr.1 pr.2) := by
  constructor
  · intro pr hpr
    rw [overall_priority_eq_foldl_max]
    exact le_foldl_max_of_mem _ 1 _ (List.mem_map_of_mem _ hpr)
  · rcases foldl_max_eq_init_or_mem
        (runs.map (fun pr => current_priority pr.1 pr.2)) 1 with he | hm
    · cases runs with
      | nil => exact absurd rfl h
      | cons pr rest =>
        refine ⟨pr, List.mem_cons_self pr rest, ?_⟩
        have hub : current_priority pr.1 pr.2 ≤ overall_priority (pr :: rest) := by
          rw [overall_priority_eq_foldl_max]
          exact le_foldl_max_of_mem _ 1 _
            (List.mem_map_of_mem _ (List.mem_cons_self pr rest))
        have hge := one_le_current_priority pr.1 pr.2
        rw [overall_priority_eq_foldl_max] at hub ⊢
        rw [he] at hub ⊢
        omega
    · rcases List.mem_map.mp hm with ⟨pr, hpr, heq⟩
      refine ⟨pr, hpr, ?_⟩
      rw [overall_priority_eq_foldl_max, ← heq]

/-- Concrete pool runs: a healthy first pool and a missing second pool. -/
def poolRunsExample : List PoolRun :=
  [("rpool", ⟨poolHealthyMarker "rpool", "", 0⟩),
   ("tank", ⟨"", "cannot open: no such pool", 1⟩)]

/-- C9 witness: on a concrete two-pool run with priorities one and eight
the aggregate is eight, the maximum. -/
theorem summary_priority_is_max_witness :
    poolRunsExample ≠ [] ∧
    current_priority "rpool" ⟨poolHealthyMarker "rpool", "", 0⟩ = 1 ∧
    current_priority "tank" ⟨"", "cannot open: no such pool", 1⟩ = 8 ∧
    overall_priority poolRunsExample = 8 ∧
    ((∀ pr ∈ poolRunsExample,
        current_priority pr.1 pr.2 ≤ overall_priority poolRunsExample) ∧
      (∃ pr ∈ poolRunsExample,
        overall_priority poolRunsExample = current_priority pr.1 pr.2)) :=
  ⟨by decide, by decide, by decide, by decide,
    summary_priority_is_max poolRunsExample (by decide)⟩

/-- C10: for every notification priority level on the one-to-ten scale,
the Pushover priority is minus one when the level is at most one, one when
it is at least eight, and zero otherwise. -/
theorem pushover_bucketing (p : ℤ) (h1 : 1 ≤ p) (h2 : p ≤ 10) :
    (p ≤ 1 → pushover_priority p = -1) ∧
    (8 ≤ p → pushover_priority p = 1) ∧
    (1 < p → p < 8 → pushover_priority p = 0) := by
  unfold pushover_priority
  refine ⟨fun hp => ?_, fun hp => ?_, fun hp hq => ?_⟩ <;> split_ifs <;> omega

/-- C10 witness: at priority eight the Pushover bucket is one (high). -/
theorem pushover_bucketing_witness :
    (1 : ℤ) ≤ 8 ∧ (8 : ℤ) ≤ 10 ∧ pushover_priority 8 = 1 :=
  ⟨by norm_num, by norm_num,
    (pushover_bucketing 8 (by norm_num) (by norm_num)).2.1 (by norm_num)⟩

/-! Concrete inputs used by counterexamples and witnesses. -/

/-- The configuration constants of the source: rated endurance 360 TB and
a five-year age limit. -/
def cfgDefault : MonitorConfig := ⟨360, 5⟩

/-- A disk whose three queries succeed, whose health verdict is the passed
marker, and whose attributes text is empty, so no trigger of the claimed
notification policy holds. -/
def dHealthy : DiskInputs := ⟨0, 0, 0, "", "PASSED", ""⟩

/-- A disk whose attributes text makes float conversion of the bracketed
value fail with a ValueError, modelling a calculation error. -/
def dCalcErr : DiskInputs :=
  ⟨0, 0, 0, "", "PASSED", "Data Units Written: 123 [1.2.3 TB]"⟩

/-- C1 counterexample: a disk with a passed health verdict, no replacement
projection at all (so no imminent-replacement signal) and no calculation
error still gets exactly one per-disk notification, contradicting the
claimed only-on-actionable-signal policy. -/
theorem per_disk_notification_cx :
    (buildDriveReport cfgDefault dHealthy).health = "PASSED" ∧
    (buildDriveReport cfgDefault dHealthy).enduranceOut = .statsNA ∧
    (disk_notifications cfgDefault 1 "sda" dHealthy).length = 1 := by
  refine ⟨by decide, by decide, by decide⟩

/-- C1 amended: for every disk whose three diagnostic queries succeed, a
single per-disk notification carrying the full drive report is sent
unconditionally at the aggregate pool priority, whatever the health
verdict, replacement projection or calculation outcome. -/
theorem per_disk_notification_unconditional (cfg : MonitorConfig)
    (overall : ℕ) (dev : String) (d : DiskInputs)
    (h1 : d.ret_info = 0) (h2 : d.ret_health = 0) (h3 : d.ret_attrs = 0) :
    disk_notifications cfg overall dev d =
      [.driveReport dev (buildDriveReport cfg d) overall] := by
  unfold disk_notifications
  rw [if_neg]
  push_neg
  exact ⟨h1, h2, h3⟩

/-- C1 amended witness: the healthy disk gets exactly its drive-report
notification at the aggregate priority. -/
theorem per_disk_notification_unconditional_witness :
    dHealthy.ret_info = 0 ∧ dHealthy.ret_health = 0 ∧ dHealthy.ret_attrs = 0 ∧
    disk_notifications cfgDefault 1 "sda" dHealthy =
      [.driveReport "sda" (buildDriveReport cfgDefault dHealthy) 1] :=
  ⟨rfl, rfl, rfl,
    per_disk_notification_unconditional cfgDefault 1 "sda" dHealthy rfl rfl rfl⟩

/-- C3 counterexample: on a disk whose estimation raises a ValueError the
report gets the calculation-error placeholder, but the only notification
emitted for the disk carries the aggregate pool priority (here one), and no
priority-five notification exists. -/
theorem calc_error_priority_cx :
    (buildDriveReport cfgDefault dCalcErr).enduranceOut = .calcError ∧
    (disk_notifications cfgDefault 1 "sdb" dCalcErr).map prio = [1] ∧
    ((disk_notifications cfgDefault 1 "sdb" dCalcErr).map prio).contains 5 = false := by
  refine ⟨by decide, by decide, by decide⟩

/-- C3 amended: a ValueError inside the endurance estimation is never
propagated: the report gets the calculation-error placeholder and the
per-disk notification, sent unconditionally, carries the aggregate pool
priority rather than a dedicated priority-five alert. -/
theorem calc_error_recovery (cfg : MonitorConfig) (overall : ℕ) (dev : String)
    (d : DiskInputs)
    (h1 : d.ret_info = 0) (h2 : d.ret_health = 0) (h3 : d.ret_attrs = 0)
    (he : tbWritten (data_units_written_raw_of d.attrs_out)
      (lba_written_raw_of d.attrs_out) = .calcFail) :
    (buildDriveReport cfg d).enduranceOut = .calcError ∧
    disk_notifications cfg overall dev d =
      [.driveReport dev (buildDriveReport cfg d) overall] := by
  constructor
  · show endurance cfg (data_units_written_raw_of d.attrs_out)
      (lba_written_raw_of d.attrs_out) (hoursDays (hours_raw_of d.attrs_out)).2 =
      .calcError
    unfold endurance
    rw [he]
  · unfold disk_notifications
    rw [if_neg]
    push_neg
    exact ⟨h1, h2, h3⟩

/-- C3 amended witness: the ValueError disk yields the placeholder and the
notification at the aggregate priority. -/
theorem calc_error_recovery_witness :
    tbWritten (data_units_written_raw_of dCalcErr.attrs_out)
        (lba_written_raw_of dCalcErr.attrs_out) = .calcFail ∧
    (buildDriveReport cfgDefault dCalcErr).enduranceOut = .calcError ∧
    disk_notifications cfgDefault 1 "sdb" dCalcErr =
      [.driveReport "sdb" (buildDriveReport cfgDefault dCalcErr) 1] := by
  have h := calc_error_recovery cfgDefault 1 "sdb" dCalcErr rfl rfl rfl (by decide)
  exact ⟨by decide, h.1, h.2⟩

/-- C4 counterexample: an attributes text whose remaining-lifetime field is
one hundred fifty yields a retained wear percentage of minus fifty, a
negative count inside the normalized metrics. -/
theorem normalized_nonnegative_cx :
    life_used_of_attrs "Percent_Lifetime_Remain: 150" = .used (-50) ∧
    (-50 : ℤ) < 0 := by
  refine ⟨by decide, by norm_num⟩

/-- C4 amended: the temperature metric is always a digit string, hence
never negative, and the wear percentage inferred from the
remaining-percentage path is non-negative provided the parsed remaining
value is at most one hundred (a remaining value above one hundred yields a
negative wear percentage). -/
theorem normalized_nonnegative_amended :
    (∀ tr : Option String,
      tempOf tr = "N/A" ∨
      ((tempOf tr).toList ≠ [] ∧ (tempOf tr).toList.all Char.isDigit = true)) ∧
    (∀ (wl : Option String) (s : String) (n : ℤ),
      pyInt? s = some n → n ≤ 100 →
      life_used_resolution none (some s) wl = .used (100 - n) ∧
      0 ≤ 100 - n) := by
  constructor
  · intro tr
    cases tr with
    | none => left; rfl
    | some s =>
      cases hld : leadingDigits s with
      | none =>
        left
        show (match leadingDigits s with
          | some d => d
          | none => "N/A") = "N/A"
        rw [hld]
      | some d =>
        right
        have hprops : d.toList ≠ [] ∧ d.toList.all Char.isDigit = true := by
          unfold leadingDigits at hld
          by_cases hd :
              (s.toList.dropWhile Char.isWhitespace).takeWhile Char.isDigit = []
          · rw [if_pos hd] at hld; cases hld
          · rw [if_neg hd] at hld
            injection hld with h
            subst h
            refine ⟨hd, ?_⟩
            exact List.all_eq_true.mpr
              (fun c hc => List.mem_takeWhile_imp (p := Char.isDigit) hc)
        have hT : tempOf (some s) = d := by
          show (match leadingDigits s with
            | some d => d
            | none => "N/A") = d
          rw [hld]
        rw [hT]
        exact hprops
  · intro wl s n hn hle
    constructor
    · show (match pyInt? s with
        | some n => LifeUsed.used (100 - n)
        | none => LifeUsed.na) = LifeUsed.used (100 - n)
      rw [hn]
    · omega

/-- C4 amended witness: a remaining value of thirty yields a wear
percentage of seventy, non-negative. -/
theorem normalized_nonnegative_amended_witness :
    pyInt? "30" = some 30 ∧ (30 : ℤ) ≤ 100 ∧
    (life_used_resolution none (some "30") none = .used (100 - 30) ∧
      (0 : ℤ) ≤ 100 - 30) :=
  ⟨by decide, by norm_num,
    normalized_nonnegative_amended.2 none "30" 30 (by decide) (by norm_num)⟩

/-- C6 counterexample: with a rich field present but matching neither
pattern and a parseable sector count in the fallback field, the program
derives no bytes-written value, while the claimed resolution chain falls
through to the sector-count conversion. -/
theorem tb_written_order_cx :
    tbWritten (some "N/A") (some "2048") = .val none ∧
    tbWrittenSpecChain (some "N/A") (some "2048") = some (1 / 1048576) ∧
    tbWritten (some "N/A") (some "2048") ≠
      .val (tbWrittenSpecChain (some "N/A") (some "2048")) := by
  have hchain : tbWrittenSpecChain (some "N/A") (some "2048") = some (1 / 1048576) := by
    have hchain0 : tbWrittenSpecChain (some "N/A") (some "2048") =
        some (((2048 : ℤ) : ℚ) * 512 / 1024 ^ 4) := rfl
    have hval : (((2048 : ℤ) : ℚ) * 512 / 1024 ^ 4) = 1 / 1048576 := by
      push_cast
      norm_num
    rw [hchain0, hval]
  refine ⟨by decide, hchain, ?_⟩
  rw [hchain]
  decide

/-- C6 amended: bytes written is resolved from a present rich field by the
bracketed TB value used verbatim (taking precedence over any raw
conversion), else by its leading unit count at 512 bytes per unit; the
sector-count fallback at 512 bytes per sector is consulted only when the
rich field is absent; a present rich field matching neither pattern yields
no bytes-written value; all raw conversions divide by two to the
fortieth. -/
theorem tb_written_resolution_order :
    (∀ (lba : Option String) (s grp : String) (q : ℚ),
      bracketTB? s = some grp → parseFloatQ? grp = some q →
      tbWritten (some s) lba = .val (some q)) ∧
    (∀ (lba : Option String) (s grp : String) (n : ℤ),
      bracketTB? s = none → leadingUnits? s = some grp →
      pyInt? (removeCommas grp) = some n →
      tbWritten (some s) lba = .val (some ((n : ℚ) * 512 / 1024 ^ 4))) ∧
    (∀ (s : String) (n : ℤ),
      pyInt? (removeCommas s) = some n →
      tbWritten none (some s) = .val (some ((n : ℚ) * 512 / 1024 ^ 4))) ∧
    (∀ (lba : Option String) (s : String),
      bracketTB? s = none → leadingUnits? s = none →
      tbWritten (some s) lba = .val none) := by
  refine ⟨?_, ?_, ?_, ?_⟩
  · intro lba s grp q hb hq
    simp only [tbWritten, hb, hq]
  · intro lba s grp n hb hu hn
    simp only [tbWritten, hb, hu, hn]
  · intro s n hn
    simp only [tbWritten, hn]
  · intro lba s hb hu
    simp only [tbWritten, hb, hu]

/-- C6 witness: the rich field with a bracketed value of twelve point five
TB yields that value verbatim even though a fallback sector count is
present. -/
theorem tb_written_resolution_order_witness :
    bracketTB? "24,550,629 [12.5 TB]" = some "12.5" ∧
    parseFloatQ? "12.5" = some (25 / 2) ∧
    tbWritten (some "24,550,629 [12.5 TB]") (some "7") = .val (some (25 / 2)) := by
  have hb : bracketTB? "24,550,629 [12.5 TB]" = some "12.5" := by decide
  have hd1 : digitsVal ("12".toList) = 12 := by decide
  have hd2 : digitsVal ("5".toList) = 5 := by decide
  have hp : parseFloatQ? "12.5" = some (25 / 2) := by
    have hr : parseFloatQ? "12.5" =
        some ((digitsVal ("12".toList) : ℚ) +
          (digitsVal ("5".toList) : ℚ) / 10 ^ ("5".toList).length) := rfl
    rw [hr, hd1, hd2]
    norm_num
  exact ⟨hb, hp, tb_written_resolution_order.1 (some "7") _ _ _ hb hp⟩

/-- C7: wear percentage resolution: when the direct used-percentage field
is absent and the remaining-percentage parses as an integer, the wear
percentage is exactly one hundred minus the remaining percentage; a present
direct value (percent signs removed) takes precedence and the later fields
are never consulted; the wear-leveling counter value, rendered with its
approximation tag, is used only when both other fields are absent. -/
theorem wear_percentage_resolution :
    (∀ (wl : Option String) (s : String) (n : ℤ),
      pyInt? s = some n →
      life_used_resolution none (some s) wl = .used (100 - n)) ∧
    (∀ (s : String) (lr wl lr2 wl2 : Option String),
      life_used_resolution (some s) lr wl = life_used_resolution (some s) lr2 wl2) ∧
    (∀ (lr wl : Option String) (s : String) (n : ℤ),
      pyInt? (removeAll '%' s) = some n →
      life_used_resolution (some s) lr wl = .used n) ∧
    (∀ (pu lr wl : Option String) (n : ℤ),
      life_used_resolution pu lr wl = .wlc n → pu = none ∧ lr = none) ∧
    (∀ n : ℤ, lifeUsedStr (.wlc n) = toString n ++ "% used (WLC)") := by
  refine ⟨?_, ?_, ?_, ?_, fun n => rfl⟩
  · intro wl s n hn
    show (match pyInt? s with
      | some n => LifeUsed.used (100 - n)
      | none => LifeUsed.na) = LifeUsed.used (100 - n)
    rw [hn]
  · intro s lr wl lr2 wl2
    rfl
  · intro lr wl s n hn
    show (match pyInt? (removeAll '%' s) with
      | some n => LifeUsed.used n
      | none => LifeUsed.na) = LifeUsed.used n
    rw [hn]
  · intro pu lr wl n h
    cases pu with
    | some s =>
      exfalso
      revert h
      show (match pyInt? (removeAll '%' s) with
        | some n => LifeUsed.used n
        | none => LifeUsed.na) = LifeUsed.wlc n → False
      cases pyInt? (removeAll '%' s) with
      | some m => intro h; cases h
      | none => intro h; cases h
    | none =>
      cases lr with
      | some s =>
        exfalso
        revert h
        show (match pyInt? s with
          | some n => LifeUsed.used (100 - n)
          | none => LifeUsed.na) = LifeUsed.wlc n → False
        cases pyInt? s with
        | some m => intro h; cases h
        | none => intro h; cases h
      | none => exact ⟨rfl, rfl⟩

/-- C7 witness: with the direct field absent, remaining forty gives wear
sixty even when a wear-leveling counter is present; a direct value of five
percent with a trailing sign takes precedence over both. -/
theorem wear_percentage_resolution_witness :
    pyInt? "40" = some 40 ∧
    life_used_resolution none (some "40") (some "77") = .used (100 - 40) ∧
    pyInt? (removeAll '%' "5%") = some 5 ∧
    life_used_resolution (some "5%") (some "40") (some "77") = .used 5 :=
  ⟨by decide,
    wear_percentage_resolution.1 (some "77") "40" 40 (by decide),
    by decide,
    wear_percentage_resolution.2.2.1 (some "40") (some "77") "5%" 5 (by decide)⟩

/-- C2 counterexample: with four hundred terabytes written against a rated
three hundred sixty and zero powered days, the remaining capacity is
negative and the daily rate is zero, at most the threshold; yet the
recommendation stays absent with absent years remaining instead of the
claimed now-exceeded with zero years. -/
theorem exceeded_low_rate_cx :
    gbPerDay 400 0 = 0 ∧
    cfgDefault.ratedTBW - 400 < 0 ∧
    endurance_core cfgDefault (some 400) (some 0) =
      .stats 400 0 (1000 / 9) (-40) none none .na := by
  have hg : gbPerDay 400 0 = 0 := by simp [gbPerDay]
  refine ⟨hg, by norm_num [cfgDefault], ?_⟩
  simp only [endurance_core, cfgDefault, hg]
  norm_num

/-- C2 amended: with bytes written and powered days present, rated capacity
positive and remaining capacity negative, the now-exceeded recommendation
with zero years remaining is produced exactly when the daily rate exceeds
the threshold of one thousandth of a GB per day; at or below the threshold
the recommendation and the years remaining stay absent. -/
theorem exceeded_requires_rate (cfg : MonitorConfig) (W D : ℚ)
    (hr : 0 < cfg.ratedTBW) (hneg : cfg.ratedTBW - W < 0) :
    (1 / 1000 < gbPerDay W D →
      endurance_core cfg (some W) (some D) =
        .stats W (gbPerDay W D) (W / cfg.ratedTBW * 100) (cfg.ratedTBW - W)
          (some (daysRemainingOf cfg W D)) (some 0) .nowExceeded) ∧
    (gbPerDay W D ≤ 1 / 1000 →
      endurance_core cfg (some W) (some D) =
        .stats W (gbPerDay W D) (W / cfg.ratedTBW * 100) (cfg.ratedTBW - W)
          none none .na) := by
  constructor
  · intro hgb
    have hgb0 : (0 : ℚ) < gbPerDay W D := lt_trans (by norm_num) hgb
    have hq : (cfg.ratedTBW - W) * 1024 / gbPerDay W D < 0 :=
      div_neg_of_neg_of_pos (mul_neg_of_neg_of_pos hneg (by norm_num)) hgb0
    have hfl : Int.floor ((cfg.ratedTBW - W) * 1024 / gbPerDay W D) < 0 := by
      have hc : (cfg.ratedTBW - W) * 1024 / gbPerDay W D < ((0 : ℤ) : ℚ) := by
        exact_mod_cast hq
      exact Int.floor_lt.mpr hc
    simp only [endurance_core]
    rw [if_pos hr, if_pos hgb,
      if_neg (not_le.mpr hfl)]
    rfl
  · intro hgb
    simp only [endurance_core]
    rw [if_pos hr, if_neg (not_lt.mpr hgb), if_neg (not_le.mpr hneg)]

/-- C2 amended witness: at one hundred powered days the rate is far above
the threshold and the outcome is now-exceeded with zero years; at zero
powered days the rate is zero and the outcome stays absent. -/
theorem exceeded_requires_rate_witness :
    0 < cfgDefault.ratedTBW ∧ cfgDefault.ratedTBW - 400 < 0 ∧
    endurance_core cfgDefault (some 400) (some 100) =
      .stats 400 (gbPerDay 400 100) (400 / cfgDefault.ratedTBW * 100)
        (cfgDefault.ratedTBW - 400) (some (daysRemainingOf cfgDefault 400 100))
        (some 0) .nowExceeded ∧
    endurance_core cfgDefault (some 400) (some 0) =
      .stats 400 (gbPerDay 400 0) (400 / cfgDefault.ratedTBW * 100)
        (cfgDefault.ratedTBW - 400) none none .na := by
  have h1 : (0 : ℚ) < cfgDefault.ratedTBW := by norm_num [cfgDefault]
  have h2 : cfgDefault.ratedTBW - 400 < 0 := by norm_num [cfgDefault]
  refine ⟨h1, h2, ?_, ?_⟩
  · exact (exceeded_requires_rate cfgDefault 400 100 h1 h2).1
      (by norm_num [gbPerDay])
  · exact (exceeded_requires_rate cfgDefault 400 0 h1 h2).2
      (by norm_num [gbPerDay])

/-- C8: with rated capacity positive, daily rate above the threshold and a
non-negative remaining-days projection, the report carries the projection,
its one-decimal years value, and the replacement recommendation whose date
is the earlier (minimum) of the usage-limited and age-limited day offsets,
tagged usage-limited exactly when the usage date is strictly earlier. -/
theorem replacement_earlier_date (cfg : MonitorConfig) (W D : ℚ)
    (hr : 0 < cfg.ratedTBW) (hgb : 1 / 1000 < gbPerDay W D)
    (hdn : 0 ≤ daysRemainingOf cfg W D) :
    endurance_core cfg (some W) (some D) =
      .stats W (gbPerDay W D) (W / cfg.ratedTBW * 100) (cfg.ratedTBW - W)
        (some (daysRemainingOf cfg W D))
        (some (round1 ((daysRemainingOf cfg W D : ℚ) / 365)))
        (chosenRec (daysRemainingOf cfg W D) ((cfg.ageYears : ℤ) * 365)) ∧
    recDate (chosenRec (daysRemainingOf cfg W D) ((cfg.ageYears : ℤ) * 365)) =
      some (min (daysRemainingOf cfg W D) ((cfg.ageYears : ℤ) * 365)) ∧
    (isUsageLimited
        (chosenRec (daysRemainingOf cfg W D) ((cfg.ageYears : ℤ) * 365)) = true ↔
      daysRemainingOf cfg W D < (cfg.ageYears : ℤ) * 365) := by
  have hdn2 : (0 : ℤ) ≤ Int.floor ((cfg.ratedTBW - W) * 1024 / gbPerDay W D) := hdn
  refine ⟨?_, ?_, ?_⟩
  · simp only [endurance_core]
    rw [if_pos hr, if_pos hgb, if_pos hdn2]
    rfl
  · unfold chosenRec recDate
    split_ifs with h
    · simp only [Option.some.injEq]
      omega
    · simp only [Option.some.injEq]
      omega
  · unfold chosenRec isUsageLimited
    split_ifs with h
    · simpa using h
    · simpa using h

/-- C8 witness, the scenario of the specification: rated three hundred
sixty TB, eighteen TB written over one hundred days, five-year age limit:
the projection is exactly one thousand nine hundred days, five point two
years, and the recommendation is age-limited at one thousand eight hundred
twenty-five days (five years) from today. -/
theorem replacement_earlier_date_witness :
    (0 : ℚ) < cfgDefault.ratedTBW ∧
    (1 / 1000 : ℚ) < gbPerDay 18 100 ∧
    daysRemainingOf cfgDefault 18 100 = 1900 ∧
    endurance_core cfgDefault (some 18) (some 100) =
      .stats 18 (gbPerDay 18 100) (18 / cfgDefault.ratedTBW * 100)
        (cfgDefault.ratedTBW - 18) (some (daysRemainingOf cfgDefault 18 100))
        (some (round1 ((daysRemainingOf cfgDefault 18 100 : ℚ) / 365)))
        (chosenRec (daysRemainingOf cfgDefault 18 100)
          ((cfgDefault.ageYears : ℤ) * 365)) ∧
    chosenRec (daysRemainingOf cfgDefault 18 100)
        ((cfgDefault.ageYears : ℤ) * 365) = .ageLimited 1825 ∧
    round1 ((daysRemainingOf cfgDefault 18 100 : ℚ) / 365) = 26 / 5 := by
  have h1 : (0 : ℚ) < cfgDefault.ratedTBW := by norm_num [cfgDefault]
  have hg : gbPerDay 18 100 = 18432 / 100 := by norm_num [gbPerDay]
  have hgb : (1 / 1000 : ℚ) < gbPerDay 18 100 := by rw [hg]; norm_num
  have hdrem : daysRemainingOf cfgDefault 18 100 = 1900 := by
    unfold daysRemainingOf
    rw [hg]
    norm_num [cfgDefault]
  have hdn : 0 ≤ daysRemainingOf cfgDefault 18 100 := by rw [hdrem]; norm_num
  refine ⟨h1, hgb, hdrem,
    (replacement_earlier_date cfgDefault 18 100 h1 hgb hdn).1, ?_, ?_⟩
  · rw [hdrem]
    norm_num [chosenRec, cfgDefault]
  · rw [hdrem]
    norm_num [round1, roundHalfEven, Int.floor_eq_iff]

end ZMon

